import Mathlib

/-!
Verification of the stock-audible live-price announcement server.

The development shallowly embeds the two Python modules under src/:

* stock_service.py : the StockService class with get_current_price and
  format_announcement.
* app.py : the socket handlers handle_start, handle_stop and the
  background loop announce_stock_prices, modelled as a labelled
  transition system over the module-level shared state
  (announcement_thread, stop_event, current_ticker, current_interval).

Python floats carrying prices are modelled as exact rationals; the
provider (yfinance) is modelled as an oracle value describing either the
data it returned or the exception it raised.
-/

/-- Python str.isspace-relevant default strip set: the ASCII whitespace
characters removed by str.strip() with no argument. -/
def pyIsSpace (c : Char) : Bool :=
  c = ' ' || c = '\t' || c = '\n' || c = '\r' || c = '\x0b' || c = '\x0c'

/-- Python str.strip(): remove leading and trailing whitespace. -/
def pyStrip (s : String) : String :=
  String.mk (((s.toList.dropWhile pyIsSpace).reverse.dropWhile pyIsSpace).reverse)

/-- Python str.upper() on the ASCII letters used by tickers
(Char.toUpper uppercases exactly the basic latin letters). -/
def pyUpper (s : String) : String :=
  String.mk (s.toList.map Char.toUpper)

/-- Python sep.join(s) iterating over the characters of a string s:
the first character, then sep followed by each later character. -/
def pyJoinChars (sep : String) (cs : List Char) : String :=
  match cs with
  | [] => ""
  | c :: rest => rest.foldl (fun acc d => acc ++ sep ++ String.mk [d]) (String.mk [c])

/-- Digit tail of a Python integer literal: digits, where a single
underscore may appear between two digits (int("1_0") = 10). -/
def parseDigits : List Char → Nat → Option Nat
  | [], acc => some acc
  | '_' :: c :: rest, acc =>
    if c.isDigit then parseDigits rest (acc * 10 + (c.toNat - 48)) else none
  | c :: rest, acc =>
    if c.isDigit then parseDigits rest (acc * 10 + (c.toNat - 48)) else none

/-- A nonempty run of digits (with internal underscores), as accepted by
Python int() after the optional sign. -/
def parseUnsigned (cs : List Char) : Option Nat :=
  match cs with
  | c :: rest => if c.isDigit then parseDigits rest (c.toNat - 48) else none
  | [] => none

/-- Python int(str): strip whitespace, optional sign, digit run.
Returns none exactly when int() raises ValueError. -/
def pyIntOfString (s : String) : Option Int :=
  let cs := ((s.toList.dropWhile pyIsSpace).reverse.dropWhile pyIsSpace).reverse
  match cs with
  | '+' :: rest => (parseUnsigned rest).map (fun n => (n : Int))
  | '-' :: rest => (parseUnsigned rest).map (fun n => -(n : Int))
  | rest => (parseUnsigned rest).map (fun n => (n : Int))

/-- The value found under the interval key of the start command payload:
socket payloads deliver either a number or a string here. -/
inductive IntervalInput where
  | int (n : Int)
  | str (s : String)
deriving DecidableEq

/-- Python int(x) on an interval payload value; none models a raised
ValueError. -/
def pyInt : IntervalInput → Option Int
  | .int n => some n
  | .str s => pyIntOfString s

/-- Python truthiness of an optional numeric field value
(None and 0 are falsy). -/
def pyTruthyNum : Option ℚ → Bool
  | none => false
  | some q => decide (q ≠ 0)

/-- Python a or b for optional numeric values: yields a when a is
truthy, otherwise yields b (even when b is falsy). -/
def pyOrNum (a b : Option ℚ) : Option ℚ :=
  if pyTruthyNum a then a else b

/-- Python round(x, 2) on the exact rational value: round to the nearest
multiple of 1/100, ties to the even multiple (bankers rounding, the
runtime's standard rounding rule). -/
def pyRound2 (q : ℚ) : ℚ :=
  let x : ℚ := q * 100
  let n : ℤ := ⌊x⌋
  let frac : ℚ := x - (n : ℚ)
  let r : ℤ :=
    if frac < 1/2 then n
    else if 1/2 < frac then n + 1
    else if n % 2 = 0 then n else n + 1
  (r : ℚ) / 100

/-- Python str() of a float whose value is a rational with at most two
decimal places (every price stored by get_current_price is such a
value): the natural decimal form, trailing zeros dropped but always at
least one digit after the point, so 4500 prints as 4500.0 and 350.5 as
350.5. -/
def reprRat2 (q : ℚ) : String :=
  let sign := if q < 0 then "-" else ""
  let cents : ℤ := ⌊|q| * 100⌋
  let whole := cents / 100
  let rem := cents % 100
  let fracStr :=
    if rem = 0 then "0"
    else if rem % 10 = 0 then toString (rem / 10)
    else if rem < 10 then "0" ++ toString rem
    else toString rem
  sign ++ toString whole ++ "." ++ fracStr

/-- The dictionary returned by StockService.get_current_price
(ticker, price, currency). -/
structure Quote where
  ticker : String
  price : ℚ
  currency : String
deriving DecidableEq

/-- The fields of stock.info read by get_current_price; none means the
key is absent (dict.get returns None). -/
structure ProviderInfo where
  currentPrice : Option ℚ
  regularMarketPrice : Option ℚ
  currency : Option String
deriving DecidableEq

/-- Behaviour of the yfinance provider during one get_current_price
call: either the info dict together with the last Close of the
one-day history (none when the history frame is empty), or an
exception raised anywhere inside the try block. -/
inductive FetchOutcome where
  | ok (info : ProviderInfo) (histClose : Option ℚ)
  | raise (message : String)
deriving DecidableEq

/-- The try-block body of StockService.get_current_price; an error value
is the exception escaping the body before the except clause runs. -/
def get_current_price_body (ticker : String) (src : FetchOutcome) :
    Except String (Option Quote) :=
  match src with
  | .raise msg => .error msg
  | .ok info histClose =>
    let price0 := pyOrNum info.currentPrice info.regularMarketPrice
    let price1 := match price0 with
      | none => histClose
      | some p => some p
    match price1 with
    | none => .ok none
    | some p =>
      .ok (some { ticker := pyUpper ticker
                , price := pyRound2 p
                , currency := info.currency.getD "USD" })

/-- StockService.get_current_price: the try body with the except clause
that logs the exception and returns None. -/
def get_current_price (ticker : String) (src : FetchOutcome) : Option Quote :=
  match get_current_price_body ticker src with
  | .error _ => none
  | .ok r => r

/-- StockService.format_announcement: spell the ticker character by
character separated by spaces, then a period, a space and the price. -/
def format_announcement (data : Quote) : String :=
  let ticker_spelled := pyJoinChars " " data.ticker.toList
  ticker_spelled ++ ". " ++ reprRat2 data.price

/-- Specification-side reading of the announcement text: every character
of the ticker, joined by single spaces. -/
def spacedChars : List Char → List Char
  | [] => []
  | [c] => [c]
  | c :: rest => c :: ' ' :: spacedChars rest

/-- Modelled from the spec: config.py is not under src (only its tests
are). Section 6 of the spec: DEFAULT_INTERVAL is an integer number of
seconds whose default value is 300, consumed by app.py as
Config.DEFAULT_INTERVAL. -/
def DEFAULT_INTERVAL : Int := 300

/-- Events emitted to clients by app.py. The price_update payload also
carries a wall-clock timestamp, which lies outside this embedding. -/
inductive Ev where
  | connected (status : String)
  | started (ticker : String) (interval : Int)
  | stopped (status : String)
  | priceUpdate (ticker : String) (price : ℚ) (announcement : String)
  | errorMsg (message : String)
deriving DecidableEq

/-- Program point of a live announce_stock_prices thread.

top: about to evaluate the while condition (equivalently, sitting in
stop_event.wait; the wait and the following condition check are fused
into one step, which preserves all observable event orderings).

emitPhase res: the thread has read current_ticker, called
get_current_price on it obtaining res, and is about to emit the
corresponding price_update or error event. -/
inductive LoopPc where
  | top
  | emitPhase (res : Option Quote)
deriving DecidableEq

/-- The module-level shared state of app.py: the set of live
announcement threads (the code keeps at most one, which the
development proves), plus stop_event, current_ticker and
current_interval. -/
structure AppState where
  loops : List LoopPc
  stopEvent : Bool
  currentTicker : Option String
  currentInterval : Int
deriving DecidableEq

/-- State at module import: no thread, Event() unset, no ticker,
interval at the configured default. -/
def initState : AppState :=
  { loops := [], stopEvent := false
  , currentTicker := none, currentInterval := DEFAULT_INTERVAL }

/-- Python truthiness of the current_ticker global (None and the empty
string are falsy). -/
def pyTruthyStr : Option String → Bool
  | none => false
  | some t => decide (t ≠ "")

/-- Python f-string interpolation of the current_ticker global. -/
def pyShowOptStr : Option String → String
  | none => "None"
  | some t => t

/-- The emit performed by the loop body for a fetch result: price_update
on data, or the error event whose message interpolates the
current_ticker global as it stands at emit time. -/
def emitEvent (ct : Option String) (res : Option Quote) : Ev :=
  match res with
  | some q => .priceUpdate q.ticker q.price (format_announcement q)
  | none => .errorMsg ("Could not fetch price for " ++ pyShowOptStr ct)

/-- One step of a live announce_stock_prices thread at program point pc,
in shared state s, with the provider behaving as oracle if a fetch
happens. Returns the events emitted and the thread's continuation
(empty when the thread exits). -/
def announce_stock_prices_step (s : AppState) (pc : LoopPc)
    (oracle : FetchOutcome) : List Ev × List LoopPc :=
  match pc with
  | .top =>
    if s.stopEvent then ([], [])
    else if pyTruthyStr s.currentTicker then
      ([], [.emitPhase (get_current_price (pyShowOptStr s.currentTicker) oracle)])
    else ([], [.top])
  | .emitPhase res => ([emitEvent s.currentTicker res], [.top])

/-- The scheduler lets the live thread (the head of loops) take one
step. -/
def loopStep (s : AppState) (oracle : FetchOutcome) : List Ev × AppState :=
  match s.loops with
  | [] => ([], s)
  | pc :: rest =>
    let r := announce_stock_prices_step s pc oracle
    (r.1, { s with loops := r.2 ++ rest })

/-- Events observed while handle_start joins a live thread after setting
stop_event: a thread at top re-checks the flag and exits silently; a
thread about to emit performs that one emit (with the globals still
holding their pre-start values) and then exits. -/
def joinTrace (ct : Option String) : LoopPc → List Ev
  | .top => []
  | .emitPhase res => [emitEvent ct res]

/-- The ticker normalization performed on entry to handle_start:
data.get('ticker', '').strip().upper(). -/
def normalizeTicker (raw : String) : String :=
  pyUpper (pyStrip raw)

/-- handle_start for the start_announcements command. rawInterval is
none when the payload omits the interval key (dict.get then yields
Config.DEFAULT_INTERVAL). An error result models the ValueError
raised by int() escaping the handler: no event is emitted and no
global is mutated. -/
def handle_start (rawTicker : String) (rawInterval : Option IntervalInput)
    (s : AppState) : Except Unit (List Ev × AppState) :=
  let ticker := normalizeTicker rawTicker
  match pyInt (rawInterval.getD (.int DEFAULT_INTERVAL)) with
  | none => .error ()
  | some interval =>
    if ticker = "" then
      .ok ([.errorMsg "Please provide a ticker symbol"], s)
    else
      let joinEvs := (s.loops.map (joinTrace s.currentTicker)).flatten
      let s1 : AppState :=
        { loops := [.top], stopEvent := false
        , currentTicker := some ticker, currentInterval := max 5 interval }
      .ok (joinEvs ++ [.started ticker (max 5 interval)], s1)

/-- handle_stop for the stop_announcements command: set stop_event,
clear current_ticker, emit stopped. The live thread (if any) exits on
its own at its next check of the flag. -/
def handle_stop (s : AppState) : List Ev × AppState :=
  ([.stopped "Announcements stopped"],
   { s with stopEvent := true, currentTicker := none })

/-- Events of a handle_start outcome as observed by clients (an escaped
exception emits nothing). -/
def startEvents (r : Except Unit (List Ev × AppState)) : List Ev :=
  match r with
  | .error _ => []
  | .ok p => p.1

/-- Shared state after a handle_start outcome (an escaped exception
leaves the globals of the pre-call state s untouched). -/
def startState (s : AppState) (r : Except Unit (List Ev × AppState)) : AppState :=
  match r with
  | .error _ => s
  | .ok p => p.2

/-- Whether the handle_start call raised an uncaught exception. -/
def startRaised (r : Except Unit (List Ev × AppState)) : Bool :=
  match r with
  | .error _ => true
  | .ok _ => false

/-- An interleaving action: one step of the live background thread, or
one client command handled to completion. -/
inductive AppAction where
  | loopTick (oracle : FetchOutcome)
  | cmdStart (rawTicker : String) (rawInterval : Option IntervalInput)
  | cmdStop
deriving DecidableEq

/-- The transition function of the whole app. -/
def step (s : AppState) (a : AppAction) : List Ev × AppState :=
  match a with
  | .loopTick oracle => loopStep s oracle
  | .cmdStart t i =>
    let r := handle_start t i s
    (startEvents r, startState s r)
  | .cmdStop => handle_stop s

/-- Run a sequence of actions, concatenating the emitted events. -/
def run (s : AppState) : List AppAction → List Ev × AppState
  | [] => ([], s)
  | a :: as =>
    let r := step s a
    let rest := run r.2 as
    (r.1 ++ rest.1, rest.2)

/-- States the app can be in after some execution from import time. -/
def Reachable (s : AppState) : Prop :=
  ∃ as : List AppAction, (run initState as).2 = s

/-- Does this event report a price update for the given ticker? -/
def isPriceUpdateFor (tk : String) : Ev → Bool
  | .priceUpdate t _ _ => decide (t = tk)
  | _ => false

/-- Invariant maintained by loop-only execution after a start for ticker
B: the shared ticker is B and every pending emit carries a quote whose
ticker field is the uppercased B. -/
def LoopTickInv (B : String) (s : AppState) : Prop :=
  s.currentTicker = some B ∧
  ∀ pc ∈ s.loops, ∀ q : Quote, pc = LoopPc.emitPhase (some q) → q.ticker = pyUpper B

/-- Does the second character list occur at the head of the first? -/
def beginsWith : List Char → List Char → Bool
  | _, [] => true
  | [], _ :: _ => false
  | c :: rest, d :: ds => c = d && beginsWith rest ds

/-- Does the second character list occur contiguously anywhere in the
first? -/
def hasSegment : List Char → List Char → Bool
  | [], needle => beginsWith [] needle
  | c :: rest, needle => beginsWith (c :: rest) needle || hasSegment rest needle

/-- Substring containment test used to state that an error message
mentions the ticker. -/
def strContains (hay needle : String) : Bool :=
  hasSegment hay.toList needle.toList

/-- The raw provider price selected by get_current_price before
rounding: the falsy-skipping or-chain over currentPrice and
regularMarketPrice, then the history fallback only when that chain
yields None. -/
def rawSelected (info : ProviderInfo) (hist : Option ℚ) : Option ℚ :=
  match pyOrNum info.currentPrice info.regularMarketPrice with
  | none => hist
  | some p => some p

/-- Tail part of the spelled-out ticker: a space before each remaining
character. -/
def spacedTail : List Char → List Char
  | [] => []
  | d :: ds => ' ' :: d :: spacedTail ds

/-! Helper lemmas: characters, strings and the announcement text. -/

theorem char_toUpper_idem (c : Char) : c.toUpper.toUpper = c.toUpper := by
  by_cases h : 97 ≤ c.toNat ∧ c.toNat ≤ 122
  · obtain ⟨h1, h2⟩ := h
    rw [(Char.ofNat_toNat c).symm]
    generalize c.toNat = n at h1 h2
    interval_cases n <;> decide
  · have he : c.toUpper = c := by
      rw [Char.toUpper]
      simp only [ge_iff_le]
      rw [if_neg h]
    rw [he, he]

theorem pyUpper_idem (s : String) : pyUpper (pyUpper s) = pyUpper s := by
  unfold pyUpper
  show String.mk (List.map Char.toUpper (List.map Char.toUpper s.toList)) = _
  rw [List.map_map]
  simp [Function.comp_def, char_toUpper_idem]

theorem pyUpper_eq_empty_iff (s : String) : pyUpper s = "" ↔ s = "" := by
  unfold pyUpper
  constructor
  · intro h
    have hd : (String.mk (s.toList.map Char.toUpper)).data = ("" : String).data := by
      rw [h]
    simp at hd
    exact String.ext hd
  · intro h
    subst h
    rfl

theorem normalizeTicker_ne_empty_iff (raw : String) :
    normalizeTicker raw ≠ "" ↔ pyStrip raw ≠ "" := by
  unfold normalizeTicker
  rw [not_iff_not]
  exact pyUpper_eq_empty_iff _

theorem String.mk_append_mk (l1 l2 : List Char) :
    String.mk l1 ++ String.mk l2 = String.mk (l1 ++ l2) := by
  apply String.ext
  simp

theorem spacedChars_cons (c : Char) (rest : List Char) :
    spacedChars (c :: rest) = c :: spacedTail rest := by
  induction rest generalizing c with
  | nil => rfl
  | cons d ds ih =>
    rw [show spacedChars (c :: d :: ds) = c :: ' ' :: spacedChars (d :: ds) from rfl]
    rw [ih d]
    rfl

theorem foldl_join_spaced (rest : List Char) :
    ∀ acc : String,
      rest.foldl (fun acc d => acc ++ " " ++ String.mk [d]) acc
        = acc ++ String.mk (spacedTail rest) := by
  induction rest with
  | nil =>
    intro acc
    show acc = acc ++ String.mk []
    rw [show String.mk ([] : List Char) = "" from rfl, String.append_empty]
  | cons d ds ih =>
    intro acc
    show ds.foldl _ (acc ++ " " ++ String.mk [d]) = _
    rw [ih (acc ++ " " ++ String.mk [d])]
    rw [String.append_assoc, String.append_assoc]
    rw [show (" " : String) = String.mk [' '] from rfl]
    rw [String.mk_append_mk, String.mk_append_mk]
    rfl

theorem pyJoinChars_eq_spacedChars (cs : List Char) :
    pyJoinChars " " cs = String.mk (spacedChars cs) := by
  cases cs with
  | nil => rfl
  | cons c rest =>
    show rest.foldl _ (String.mk [c]) = _
    rw [foldl_join_spaced rest (String.mk [c])]
    rw [String.mk_append_mk, spacedChars_cons]
    rfl

/-! Helper lemmas: Python truthiness, rounding and the quote service. -/

theorem pyOrNum_truthy {a : ℚ} (h : a ≠ 0) (b : Option ℚ) : pyOrNum (some a) b = some a := by
  simp [pyOrNum, pyTruthyNum, h]

theorem pyOrNum_zero (b : Option ℚ) : pyOrNum (some 0) b = b := by
  simp [pyOrNum, pyTruthyNum]

theorem pyOrNum_none (b : Option ℚ) : pyOrNum none b = b := by
  simp [pyOrNum, pyTruthyNum]

theorem pyRound2_zero : pyRound2 0 = 0 := by
  rw [pyRound2]
  rw [show ⌊(0 : ℚ) * 100⌋ = 0 from by norm_num]
  norm_num

theorem pyRound2_15025678 : pyRound2 (15025678/100000) = 15026/100 := by
  rw [pyRound2]
  rw [show ⌊(15025678 : ℚ)/100000 * 100⌋ = 15025 from by norm_num]
  norm_num

theorem reprRat2_15025 : reprRat2 (15025/100) = "150.25" := by
  rw [reprRat2]
  rw [show |(15025 : ℚ)/100| = 15025/100 from abs_of_nonneg (by norm_num)]
  rw [show ⌊(15025 : ℚ)/100 * 100⌋ = 15025 from by norm_num]
  rw [if_neg (by norm_num : ¬((15025 : ℚ)/100 < 0))]
  decide

theorem reprRat2_1234 : reprRat2 (1234/100) = "12.34" := by
  rw [reprRat2]
  rw [show |(1234 : ℚ)/100| = 1234/100 from abs_of_nonneg (by norm_num)]
  rw [show ⌊(1234 : ℚ)/100 * 100⌋ = 1234 from by norm_num]
  rw [if_neg (by norm_num : ¬((1234 : ℚ)/100 < 0))]
  decide

theorem reprRat2_4500 : reprRat2 4500 = "4500.0" := by
  rw [reprRat2]
  rw [show |(4500 : ℚ)| = 4500 from abs_of_nonneg (by norm_num)]
  rw [show ⌊(4500 : ℚ) * 100⌋ = 450000 from by norm_num]
  rw [if_neg (by norm_num : ¬((4500 : ℚ) < 0))]
  decide

theorem get_current_price_ok_eq (t : String) (info : ProviderInfo) (hist : Option ℚ) :
    get_current_price t (.ok info hist) =
      Option.map (fun p => Quote.mk (pyUpper t) (pyRound2 p) (info.currency.getD "USD"))
        (match pyOrNum info.currentPrice info.regularMarketPrice with
         | none => hist
         | some p => some p) := by
  cases hcp : pyOrNum info.currentPrice info.regularMarketPrice with
  | none => cases hist <;> simp [get_current_price, get_current_price_body, hcp]
  | some p => simp [get_current_price, get_current_price_body, hcp]

theorem get_current_price_ticker {t : String} {src : FetchOutcome} {q : Quote}
    (h : get_current_price t src = some q) : q.ticker = pyUpper t := by
  cases src with
  | raise m => simp [get_current_price, get_current_price_body] at h
  | ok info hist =>
    rw [get_current_price_ok_eq] at h
    cases hm : (match pyOrNum info.currentPrice info.regularMarketPrice with
                | none => hist
                | some p => some p) with
    | none => rw [hm] at h; simp at h
    | some p =>
      rw [hm] at h
      injection h with h2
      rw [← h2]

theorem gcp_concrete : get_current_price "AAPL"
    (.ok ⟨some (15025678/100000), none, some "USD"⟩ none)
    = some ⟨"AAPL", 15026/100, "USD"⟩ := by
  rw [get_current_price, get_current_price_body]
  rw [show pyOrNum (some ((15025678:ℚ)/100000)) none = some (15025678/100000) from
    pyOrNum_truthy (by norm_num) none]
  show some (Quote.mk (pyUpper "AAPL") (pyRound2 (15025678/100000)) "USD") = _
  rw [pyRound2_15025678]
  simp only [Option.some.injEq, Quote.mk.injEq]
  exact ⟨by decide, trivial, trivial⟩

/-! Helper lemmas: the app state machine. -/

theorem step_loops_le_one {s : AppState} (a : AppAction) (h : s.loops.length ≤ 1) :
    ((step s a).2).loops.length ≤ 1 := by
  cases a with
  | loopTick o =>
    rw [step, loopStep]
    cases hl : s.loops with
    | nil => exact h
    | cons pc rest =>
      have hrest : rest = [] := by
        rw [hl] at h
        simpa using h
      subst hrest
      cases pc with
      | top =>
        by_cases hs : s.stopEvent <;> by_cases ht : pyTruthyStr s.currentTicker = true <;>
          simp [announce_stock_prices_step, hs, ht]
      | emitPhase res => simp [announce_stock_prices_step]
  | cmdStart t i =>
    rw [step]
    unfold handle_start
    cases hpi : pyInt (Option.getD i (.int DEFAULT_INTERVAL)) with
    | none => simpa [startState] using h
    | some n =>
      by_cases ht : normalizeTicker t = "" <;> simp [startState, ht, h]
  | cmdStop => simpa [step, handle_stop] using h

theorem run_loops_le_one (as : List AppAction) :
    ∀ s : AppState, s.loops.length ≤ 1 → ((run s as).2).loops.length ≤ 1 := by
  induction as with
  | nil => intro s h; simpa [run] using h
  | cons a as ih =>
    intro s h
    rw [run]
    exact ih _ (step_loops_le_one a h)

theorem reachable_loops_le_one {s : AppState} (h : Reachable s) : s.loops.length ≤ 1 := by
  obtain ⟨as, rfl⟩ := h
  exact run_loops_le_one as initState (by simp [initState])

theorem loopTick_inv_step {B A : String} {s : AppState} (o : FetchOutcome)
    (hA : A ≠ pyUpper B) (h : LoopTickInv B s) :
    LoopTickInv B ((step s (.loopTick o)).2) ∧
      ((step s (.loopTick o)).1.all (fun e => !(isPriceUpdateFor A e))) = true := by
  obtain ⟨hct, hpc⟩ := h
  rw [step, loopStep]
  cases hl : s.loops with
  | nil => exact ⟨⟨hct, by rw [hl]; intro pc hmem; simp at hmem⟩, rfl⟩
  | cons pc rest =>
    have hrest : ∀ pc' ∈ rest, ∀ q : Quote, pc' = LoopPc.emitPhase (some q) →
        q.ticker = pyUpper B := by
      intro pc' hm q hq
      exact hpc pc' (by rw [hl]; exact List.mem_cons_of_mem pc hm) q hq
    cases pc with
    | top =>
      refine ⟨⟨hct, ?_⟩, ?_⟩
      · intro pc' hmem q hq
        simp only [announce_stock_prices_step] at hmem
        by_cases hs : s.stopEvent
        · rw [if_pos hs] at hmem
          simp only [List.nil_append] at hmem
          exact hrest pc' hmem q hq
        · rw [if_neg hs] at hmem
          by_cases htt : pyTruthyStr s.currentTicker = true
          · rw [if_pos htt] at hmem
            rcases List.mem_append.mp hmem with hin | hin
            · rcases List.mem_singleton.mp hin with rfl
              injection hq with hq2
              rw [hct] at hq2
              have hg : get_current_price (pyShowOptStr (some B)) o = some q := by
                rw [← hq2]
              exact get_current_price_ticker hg
            · exact hrest pc' hin q hq
          · rw [if_neg htt] at hmem
            rcases List.mem_append.mp hmem with hin | hin
            · rcases List.mem_singleton.mp hin with rfl
              exact absurd hq (by intro hk; cases hk)
            · exact hrest pc' hin q hq
      · simp only [announce_stock_prices_step]
        by_cases hs : s.stopEvent
        · rw [if_pos hs]
          rfl
        · rw [if_neg hs]
          by_cases htt : pyTruthyStr s.currentTicker = true
          · rw [if_pos htt]
            rfl
          · rw [if_neg htt]
            rfl
    | emitPhase res =>
      refine ⟨⟨hct, ?_⟩, ?_⟩
      · intro pc' hmem q hq
        simp only [announce_stock_prices_step] at hmem
        rcases List.mem_append.mp hmem with hin | hin
        · rcases List.mem_singleton.mp hin with rfl
          exact absurd hq (by intro hk; cases hk)
        · exact hrest pc' hin q hq
      · simp only [announce_stock_prices_step]
        cases res with
        | none => rfl
        | some q =>
          have hq : q.ticker = pyUpper B :=
            hpc _ (by rw [hl]; exact List.mem_cons_self _ _) q rfl
          simp only [emitEvent, List.all_cons, List.all_nil, Bool.and_true]
          rw [isPriceUpdateFor]
          rw [hq]
          simp [Ne.symm hA]

theorem runLoop_no_priceUpdate {B A : String} (hA : A ≠ pyUpper B) :
    ∀ (os : List FetchOutcome) (s : AppState), LoopTickInv B s →
      ((run s (os.map AppAction.loopTick)).1.all (fun e => !(isPriceUpdateFor A e))) = true := by
  intro os
  induction os with
  | nil => intro s _; rfl
  | cons o os ih =>
    intro s h
    rw [List.map_cons, run]
    obtain ⟨hinv, hev⟩ := loopTick_inv_step o hA h
    rw [List.all_append, hev, ih _ hinv]
    rfl

theorem handle_start_ok {rawTicker : String} {iv : Option IntervalInput} {n : Int}
    (s : AppState)
    (ht : normalizeTicker rawTicker ≠ "")
    (hiv : pyInt (iv.getD (.int DEFAULT_INTERVAL)) = some n) :
    handle_start rawTicker iv s =
      .ok ((s.loops.map (joinTrace s.currentTicker)).flatten
             ++ [.started (normalizeTicker rawTicker) (max 5 n)],
           { loops := [.top], stopEvent := false
           , currentTicker := some (normalizeTicker rawTicker)
           , currentInterval := max 5 n }) := by
  unfold handle_start
  rw [hiv]
  show (if normalizeTicker rawTicker = ""
        then Except.ok ([Ev.errorMsg "Please provide a ticker symbol"], s)
        else Except.ok ((List.map (joinTrace s.currentTicker) s.loops).flatten
               ++ [Ev.started (normalizeTicker rawTicker) (5 ⊔ n)],
             { loops := [LoopPc.top], stopEvent := false
             , currentTicker := some (normalizeTicker rawTicker)
             , currentInterval := 5 ⊔ n })) = _
  rw [if_neg ht]

theorem handle_start_empty {rawTicker : String} {iv : Option IntervalInput} {i : Int}
    (s : AppState)
    (ht : normalizeTicker rawTicker = "")
    (hiv : pyInt (iv.getD (.int DEFAULT_INTERVAL)) = some i) :
    handle_start rawTicker iv s = .ok ([Ev.errorMsg "Please provide a ticker symbol"], s) := by
  unfold handle_start
  rw [hiv]
  show (if normalizeTicker rawTicker = ""
        then Except.ok ([Ev.errorMsg "Please provide a ticker symbol"], s)
        else Except.ok ((List.map (joinTrace s.currentTicker) s.loops).flatten
               ++ [Ev.started (normalizeTicker rawTicker) (5 ⊔ i)],
             { loops := [LoopPc.top], stopEvent := false
             , currentTicker := some (normalizeTicker rawTicker)
             , currentInterval := 5 ⊔ i })) = _
  rw [if_pos ht]

/-! Claim theorems. -/

/-- C1: from any reachable state in which a subscription for ticker A is
active, issuing start for ticker B (nonempty normalized ticker, parseable
interval, B distinct from A) guarantees: at most one announcement thread
exists before the handler, the started event for B is the last event the
handler emits (the superseded thread's final emission, if any, happens
before it, because the handler joins the old thread before mutating state
and spawning the new one), the shared ticker afterwards equals the
normalized B, exactly one thread is live afterwards and at most one stays
live through any following loop-only execution, and no price_update for A
is ever observed after the started event for B in that execution. -/
theorem c1_start_handoff_ordering
    (s : AppState) (A rawB : String) (iv : Option IntervalInput) (n : Int)
    (os : List FetchOutcome)
    (hreach : Reachable s) (hA : s.currentTicker = some A)
    (hactive : s.loops ≠ [])
    (hB : normalizeTicker rawB ≠ "")
    (hiv : pyInt (iv.getD (.int DEFAULT_INTERVAL)) = some n)
    (hAB : A ≠ normalizeTicker rawB) :
    s.loops.length ≤ 1 ∧
    ((step s (.cmdStart rawB iv)).1.getLast? =
      some (.started (normalizeTicker rawB) (max 5 n))) ∧
    ((step s (.cmdStart rawB iv)).2.currentTicker = some (normalizeTicker rawB)) ∧
    ((step s (.cmdStart rawB iv)).2.loops.length = 1) ∧
    (((run ((step s (.cmdStart rawB iv)).2) (os.map AppAction.loopTick)).1.all
        (fun e => !(isPriceUpdateFor A e))) = true) ∧
    ((run ((step s (.cmdStart rawB iv)).2) (os.map AppAction.loopTick)).2.loops.length ≤ 1) := by
  have hstart := handle_start_ok s hB hiv
  have hstep : step s (.cmdStart rawB iv) =
      ((s.loops.map (joinTrace s.currentTicker)).flatten
         ++ [.started (normalizeTicker rawB) (max 5 n)],
       { loops := [.top], stopEvent := false
       , currentTicker := some (normalizeTicker rawB)
       , currentInterval := max 5 n }) := by
    rw [step, hstart]
    rfl
  have hA' : A ≠ pyUpper (normalizeTicker rawB) := by
    rw [normalizeTicker, pyUpper_idem]
    exact hAB
  have hinv : LoopTickInv (normalizeTicker rawB) (step s (.cmdStart rawB iv)).2 := by
    rw [hstep]
    refine ⟨rfl, ?_⟩
    intro pc hmem q hq
    rcases List.mem_singleton.mp hmem with rfl
    cases hq
  refine ⟨reachable_loops_le_one hreach, ?_, ?_, ?_, ?_, ?_⟩
  · rw [hstep]
    exact List.getLast?_concat _
  · rw [hstep]
  · rw [hstep]
    rfl
  · exact runLoop_no_priceUpdate hA' os _ hinv
  · refine run_loops_le_one _ _ ?_
    rw [hstep]
    exact Nat.le_refl 1

/-- C1 witness: a concrete handoff. From the state reached by starting
AAPL at interval 10, starting msft (raw, with whitespace and lower case,
interval given as the string 7) yields the started event for MSFT with
interval 7 as the last handler event, sets the ticker to MSFT, keeps
exactly one live thread, and a following loop-only execution emits no
price_update for AAPL. -/
theorem c1_start_handoff_ordering_witness :
    ((run initState [AppAction.cmdStart "AAPL" (some (.int 10))]).2).loops.length ≤ 1 ∧
    ((step (run initState [AppAction.cmdStart "AAPL" (some (.int 10))]).2
        (.cmdStart " msft " (some (.str "7")))).1.getLast? =
      some (.started (normalizeTicker " msft ") (max 5 7))) ∧
    ((step (run initState [AppAction.cmdStart "AAPL" (some (.int 10))]).2
        (.cmdStart " msft " (some (.str "7")))).2.currentTicker =
      some (normalizeTicker " msft ")) ∧
    ((step (run initState [AppAction.cmdStart "AAPL" (some (.int 10))]).2
        (.cmdStart " msft " (some (.str "7")))).2.loops.length = 1) ∧
    (((run ((step (run initState [AppAction.cmdStart "AAPL" (some (.int 10))]).2
          (.cmdStart " msft " (some (.str "7")))).2)
        ([FetchOutcome.raise "provider down"].map AppAction.loopTick)).1.all
        (fun e => !(isPriceUpdateFor "AAPL" e))) = true) ∧
    ((run ((step (run initState [AppAction.cmdStart "AAPL" (some (.int 10))]).2
          (.cmdStart " msft " (some (.str "7")))).2)
        ([FetchOutcome.raise "provider down"].map AppAction.loopTick)).2.loops.length ≤ 1) :=
  c1_start_handoff_ordering
    (run initState [AppAction.cmdStart "AAPL" (some (.int 10))]).2
    "AAPL" " msft " (some (.str "7")) 7 [FetchOutcome.raise "provider down"]
    ⟨[AppAction.cmdStart "AAPL" (some (.int 10))], rfl⟩
    (by decide) (by decide) (by decide) (by decide) (by decide)

/-- C2 counterexample: a start command with ticker AAPL and the
non-numeric interval string abc does not surface an error event to the
requesting client: int() raises ValueError, the handler dies with an
uncaught exception and emits nothing, refuting the claim that the
failure is surfaced synchronously as an error event. -/
theorem c2_nonnumeric_interval_counterexample :
    startRaised (handle_start "AAPL" (some (.str "abc")) initState) = true ∧
    startEvents (handle_start "AAPL" (some (.str "abc")) initState) = [] := by
  decide

/-- C2 amended: for every start command whose interval value is
non-numeric, int() raises ValueError before any further processing; the
exception escapes the handler uncaught, so no event at all (in
particular no error event) is emitted to the requesting client, no
shared state is mutated, and no broadcast loop is started. -/
theorem c2_nonnumeric_interval_raises (rawTicker : String) (iv : IntervalInput) (s : AppState)
    (hiv : pyInt iv = none) :
    startRaised (handle_start rawTicker (some iv) s) = true ∧
    startEvents (handle_start rawTicker (some iv) s) = [] ∧
    startState s (handle_start rawTicker (some iv) s) = s := by
  unfold handle_start
  rw [show Option.getD (some iv) (.int DEFAULT_INTERVAL) = iv from rfl, hiv]
  exact ⟨rfl, rfl, rfl⟩

/-- C2 witness: the amended statement at ticker AAPL, interval string
abc, from the initial state. -/
theorem c2_nonnumeric_interval_raises_witness :
    pyInt (.str "abc") = none ∧
    startRaised (handle_start "AAPL" (some (.str "abc")) initState) = true ∧
    startEvents (handle_start "AAPL" (some (.str "abc")) initState) = [] ∧
    startState initState (handle_start "AAPL" (some (.str "abc")) initState) = initState :=
  ⟨by decide, c2_nonnumeric_interval_raises "AAPL" (.str "abc") initState (by decide)⟩

/-- C3: for every start command with a nonempty trimmed ticker and an
interval that parses to the integer i, the handler succeeds (raises
nothing) and its final event is started carrying exactly the effective
values: the trimmed uppercased ticker and the clamped interval
max 5 i; the state records the same values; and when the interval key
is absent the effective interval is the configured DEFAULT_INTERVAL. -/
theorem c3_start_success_echoes_effective_values
    (rawTicker : String) (iv : Option IntervalInput) (i : Int) (s : AppState)
    (ht : pyStrip rawTicker ≠ "")
    (hiv : pyInt (iv.getD (.int DEFAULT_INTERVAL)) = some i) :
    startRaised (handle_start rawTicker iv s) = false ∧
    (startEvents (handle_start rawTicker iv s)).getLast? =
      some (.started (normalizeTicker rawTicker) (max 5 i)) ∧
    (startState s (handle_start rawTicker iv s)).currentTicker =
      some (normalizeTicker rawTicker) ∧
    (startState s (handle_start rawTicker iv s)).currentInterval = max 5 i ∧
    (startEvents (handle_start rawTicker none s)).getLast? =
      some (.started (normalizeTicker rawTicker) DEFAULT_INTERVAL) := by
  have hB : normalizeTicker rawTicker ≠ "" := (normalizeTicker_ne_empty_iff rawTicker).mpr ht
  have h1 := handle_start_ok s hB hiv
  have h2 := handle_start_ok s hB
    (show pyInt ((none : Option IntervalInput).getD (.int DEFAULT_INTERVAL))
       = some DEFAULT_INTERVAL from rfl)
  rw [h1, h2]
  refine ⟨rfl, List.getLast?_concat _, rfl, rfl, ?_⟩
  rw [show (5 : ℤ) ⊔ DEFAULT_INTERVAL = DEFAULT_INTERVAL from by decide]
  exact List.getLast?_concat _

/-- C3 witness: starting with raw ticker aapl surrounded by whitespace
and requested interval 2 echoes ticker AAPL and the clamped interval 5,
and the absent-interval form echoes the default 300. -/
theorem c3_start_success_echoes_effective_values_witness :
    pyStrip "  aapl " ≠ "" ∧
    startRaised (handle_start "  aapl " (some (.int 2)) initState) = false ∧
    (startEvents (handle_start "  aapl " (some (.int 2)) initState)).getLast? =
      some (.started (normalizeTicker "  aapl ") (max 5 2)) ∧
    (startState initState (handle_start "  aapl " (some (.int 2)) initState)).currentTicker =
      some (normalizeTicker "  aapl ") ∧
    (startState initState (handle_start "  aapl " (some (.int 2)) initState)).currentInterval =
      max 5 2 ∧
    (startEvents (handle_start "  aapl " none initState)).getLast? =
      some (.started (normalizeTicker "  aapl ") DEFAULT_INTERVAL) :=
  ⟨by decide, c3_start_success_echoes_effective_values "  aapl " (some (.int 2)) 2 initState
    (by decide) (by decide)⟩

/-- C4 counterexample: a start command whose ticker is empty and whose
interval is the non-numeric string five emits no event at all: the
interval is parsed before the ticker check, int() raises, and the
handler dies, refuting the claim that every empty-ticker start yields
exactly one error event. -/
theorem c4_empty_ticker_counterexample :
    startEvents (handle_start "" (some (.str "five")) initState) = [] ∧
    startRaised (handle_start "" (some (.str "five")) initState) = true := by
  decide

/-- C4 amended: for every start command whose ticker is empty or
whitespace-only and whose interval is absent or parses as an integer,
exactly one error event is emitted to the requesting client, its message
contains the word ticker, no started event is emitted, no thread is
spawned and the shared state is unchanged. (When the interval is
non-numeric the handler instead dies in int() before reaching the
ticker check.) -/
theorem c4_empty_ticker_error_event
    (rawTicker : String) (iv : Option IntervalInput) (i : Int) (s : AppState)
    (ht : pyStrip rawTicker = "")
    (hiv : pyInt (iv.getD (.int DEFAULT_INTERVAL)) = some i) :
    startEvents (handle_start rawTicker iv s) = [Ev.errorMsg "Please provide a ticker symbol"] ∧
    strContains "Please provide a ticker symbol" "ticker" = true ∧
    startState s (handle_start rawTicker iv s) = s ∧
    startRaised (handle_start rawTicker iv s) = false := by
  have hB : normalizeTicker rawTicker = "" := by
    rw [normalizeTicker, ht]
    rfl
  rw [handle_start_empty s hB hiv]
  exact ⟨rfl, by decide, rfl, rfl⟩

/-- C4 witness: the amended statement for a whitespace-only ticker with
the interval key absent, from the initial state. -/
theorem c4_empty_ticker_error_event_witness :
    pyStrip "   " = "" ∧
    startEvents (handle_start "   " none initState) =
      [Ev.errorMsg "Please provide a ticker symbol"] ∧
    strContains "Please provide a ticker symbol" "ticker" = true ∧
    startState initState (handle_start "   " none initState) = initState ∧
    startRaised (handle_start "   " none initState) = false :=
  ⟨by decide, c4_empty_ticker_error_event "   " none DEFAULT_INTERVAL initState
    (by decide) rfl⟩

/-- C5: for every quote, format_announcement returns exactly the ticker
characters (symbols such as the caret included) joined by single spaces,
then a literal period, a space, and the price in its natural decimal
form; in particular the three examples from the specification hold.
The function is total (pure, no error cases). -/
theorem c5_format_announcement_spelling (q : Quote) :
    format_announcement q = String.mk (spacedChars q.ticker.toList) ++ ". " ++ reprRat2 q.price ∧
    format_announcement ⟨"AAPL", 15025/100, "USD"⟩ = "A A P L. 150.25" ∧
    format_announcement ⟨"F", 1234/100, "USD"⟩ = "F. 12.34" ∧
    format_announcement ⟨"^GSPC", 4500, "USD"⟩ = "^ G S P C. 4500.0" := by
  refine ⟨?_, ?_, ?_, ?_⟩
  · rw [format_announcement, pyJoinChars_eq_spacedChars]
  · rw [format_announcement]
    show pyJoinChars " " ("AAPL".toList) ++ ". " ++ reprRat2 (15025/100) = _
    rw [reprRat2_15025]
    decide
  · rw [format_announcement]
    show pyJoinChars " " ("F".toList) ++ ". " ++ reprRat2 (1234/100) = _
    rw [reprRat2_1234]
    decide
  · rw [format_announcement]
    show pyJoinChars " " ("^GSPC".toList) ++ ". " ++ reprRat2 4500 = _
    rw [reprRat2_4500]
    decide

/-- C6: whenever get_current_price returns a quote, the stored price is
the raw provider price selected by the fallback chain, rounded to two
decimal places by the runtime's rounding; in particular the raw price
150.25678 is stored as 150.26. -/
theorem c6_price_rounded_two_decimals
    (t : String) (info : ProviderInfo) (hist : Option ℚ) (q : Quote)
    (h : get_current_price t (.ok info hist) = some q) :
    q.price = pyRound2 ((rawSelected info hist).getD 0) ∧
    rawSelected info hist ≠ none ∧
    pyRound2 (15025678/100000) = 15026/100 ∧
    get_current_price "AAPL" (.ok ⟨some (15025678/100000), none, some "USD"⟩ none)
      = some ⟨"AAPL", 15026/100, "USD"⟩ := by
  rw [get_current_price_ok_eq] at h
  refine ⟨?_, ?_, pyRound2_15025678, gcp_concrete⟩
  · cases hm : rawSelected info hist with
    | none =>
      rw [rawSelected] at hm
      rw [hm] at h
      simp at h
    | some p =>
      rw [rawSelected] at hm
      rw [hm] at h
      injection h with h2
      rw [← h2]
      rfl
  · intro hm
    rw [rawSelected] at hm
    rw [hm] at h
    simp at h

/-- C6 witness: the provider returning raw price 150.25678 under
currentPrice yields a stored quote whose price is exactly 150.26. -/
theorem c6_price_rounded_two_decimals_witness :
    get_current_price "AAPL" (.ok ⟨some (15025678/100000), none, some "USD"⟩ none)
      = some ⟨"AAPL", 15026/100, "USD"⟩ ∧
    (Quote.mk "AAPL" (15026/100) "USD").price =
      pyRound2 ((rawSelected ⟨some (15025678/100000), none, some "USD"⟩ none).getD 0) :=
  ⟨gcp_concrete,
   (c6_price_rounded_two_decimals "AAPL" ⟨some (15025678/100000), none, some "USD"⟩ none
     ⟨"AAPL", 15026/100, "USD"⟩ gcp_concrete).1⟩

/-- C7: get_current_price never propagates an exception to its caller:
whatever exception the provider raises inside the try body, the except
clause converts it to the NotFound result None; the exception detail is
only available to the logging in the except clause, never to the
caller. -/
theorem c7_fetch_error_returns_none (t emsg : String) :
    get_current_price_body t (.raise emsg) = .error emsg ∧
    get_current_price t (.raise emsg) = none :=
  ⟨rfl, rfl⟩

/-- C8: if the live thread has fetched NotFound for the current ticker
and the cancel flag is not set, its next step publishes exactly one
error event whose message names the failing ticker, the thread stays
alive at the top of its loop with the flag still clear (the failed fetch
does not terminate it), and conversely once the cancel flag is set the
thread's next step from the loop top terminates it. -/
theorem c8_fetch_failure_nonfatal (s : AppState) (t : String) (o o2 : FetchOutcome)
    (hl : s.loops = [LoopPc.emitPhase none])
    (hstop : s.stopEvent = false)
    (ht : s.currentTicker = some t) :
    (step s (.loopTick o)).1 = [Ev.errorMsg ("Could not fetch price for " ++ t)] ∧
    (step s (.loopTick o)).2.loops = [LoopPc.top] ∧
    (step s (.loopTick o)).2.stopEvent = false ∧
    (step s (.loopTick o)).2.currentTicker = some t ∧
    (step { (step s (.loopTick o)).2 with stopEvent := true } (.loopTick o2)).2.loops = [] := by
  have hstep : step s (.loopTick o) =
      ([Ev.errorMsg ("Could not fetch price for " ++ t)], { s with loops := [LoopPc.top] }) := by
    rw [step, loopStep, hl]
    simp only [announce_stock_prices_step, emitEvent, ht, pyShowOptStr]
    rfl
  refine ⟨by rw [hstep], by rw [hstep], by rw [hstep]; exact hstop,
          by rw [hstep]; exact ht, ?_⟩
  rw [hstep]
  rw [step, loopStep]
  simp only [announce_stock_prices_step]
  rfl

/-- C8 witness: the statement at a concrete state subscribed to AAPL
whose thread has a pending NotFound emit. -/
theorem c8_fetch_failure_nonfatal_witness :
    (step (AppState.mk [LoopPc.emitPhase none] false (some "AAPL") 5)
        (.loopTick (.raise "x"))).1 =
      [Ev.errorMsg ("Could not fetch price for " ++ "AAPL")] ∧
    (step (AppState.mk [LoopPc.emitPhase none] false (some "AAPL") 5)
        (.loopTick (.raise "x"))).2.loops = [LoopPc.top] ∧
    (step (AppState.mk [LoopPc.emitPhase none] false (some "AAPL") 5)
        (.loopTick (.raise "x"))).2.stopEvent = false ∧
    (step (AppState.mk [LoopPc.emitPhase none] false (some "AAPL") 5)
        (.loopTick (.raise "x"))).2.currentTicker = some "AAPL" ∧
    (step { (step (AppState.mk [LoopPc.emitPhase none] false (some "AAPL") 5)
          (.loopTick (.raise "x"))).2 with stopEvent := true }
        (.loopTick (.raise "y"))).2.loops = [] :=
  c8_fetch_failure_nonfatal (AppState.mk [LoopPc.emitPhase none] false (some "AAPL") 5)
    "AAPL" (.raise "x") (.raise "y") rfl rfl rfl

/-- C9: handle_stop always succeeds: in every state, idle included, it
sets the cancel flag, clears the current ticker, emits exactly the
stopped event (no error event), and a second stop from the resulting
state leaves that state unchanged. -/
theorem c9_stop_idempotent_always_succeeds (s : AppState) :
    (handle_stop s).2.stopEvent = true ∧
    (handle_stop s).2.currentTicker = none ∧
    (handle_stop s).1 = [Ev.stopped "Announcements stopped"] ∧
    (handle_stop ((handle_stop s).2)).2 = (handle_stop s).2 :=
  ⟨rfl, rfl, rfl, rfl⟩

/-- C10 counterexample: with currentPrice and regularMarketPrice both
present and exactly 0 and a nonempty history whose last close is 123.45,
get_current_price returns price 0 directly: the or-chain yields the
zero regularMarketPrice, which passes the None check, so the history
fallback is skipped — refuting the claim that a zero-valued
current-price field is never returned directly as the price. -/
theorem c10_zero_price_counterexample :
    get_current_price "AAPL" (.ok ⟨some 0, some 0, none⟩ (some (12345/100)))
      = some ⟨"AAPL", 0, "USD"⟩ := by
  rw [get_current_price, get_current_price_body]
  rw [show pyOrNum (some (0:ℚ)) (some 0) = some 0 from pyOrNum_zero _]
  show some (Quote.mk (pyUpper "AAPL") (pyRound2 0) (Option.getD none "USD")) = _
  rw [pyRound2_zero]
  simp only [Option.some.injEq, Quote.mk.injEq]
  exact ⟨by decide, trivial, rfl⟩

/-- C10 amended: a zero-valued currentPrice is treated as unavailable
by the falsy-skipping or, falling through to regularMarketPrice; but the
history fallback is reached only when the whole chain yields None: if
regularMarketPrice is itself exactly 0, the chain yields 0, the None
check passes it, and 0 is returned directly as the price, while with
regularMarketPrice absent the most recent historical close is used. -/
theorem c10_zero_price_amended (rmp hist : Option ℚ) (cur : Option String) (t : String) :
    pyOrNum (some 0) rmp = rmp ∧
    pyOrNum none rmp = rmp ∧
    get_current_price t (.ok ⟨some 0, some 0, cur⟩ hist) = some ⟨pyUpper t, 0, cur.getD "USD"⟩ ∧
    get_current_price t (.ok ⟨some 0, none, cur⟩ hist) =
      Option.map (fun p => Quote.mk (pyUpper t) (pyRound2 p) (cur.getD "USD")) hist := by
  refine ⟨pyOrNum_zero rmp, pyOrNum_none rmp, ?_, ?_⟩
  · rw [get_current_price, get_current_price_body]
    rw [show pyOrNum (some (0:ℚ)) (some 0) = some 0 from pyOrNum_zero _]
    show some (Quote.mk (pyUpper t) (pyRound2 0) (cur.getD "USD")) = _
    rw [pyRound2_zero]
  · rw [get_current_price_ok_eq]
    rw [show pyOrNum (some (0:ℚ)) none = none from pyOrNum_zero _]
